import Mathlib

/-!
Verification of the local-remote reconciliation engine of the template CLI.

The development shallowly embeds the diff utility (LCS table, backtracking
change builder), the fingerprint store and change detector, the backup
routine, and the bulk sync orchestrator, and proves the spec claims about
them.  File contents are modelled as strings; the SHA-256 digest is an
arbitrary function parameter `hash : String → String`; the filesystem of one
template directory maps each tracked relative filename to absent,
unreadable (read throws), or readable content.
-/

namespace LincxKit

/-! ## Diff engine (src diff utility: computeLCS / buildChanges / generateDiff) -/

inductive ChangeType where
  | add : ChangeType
  | remove : ChangeType
deriving DecidableEq, Repr

/-- One entry of the change list produced by the diff: `type` is add or
remove, `text` the line content, `lineNum` the 1-based line number (in the
new text for add, in the old text for remove). -/
structure Change where
  type : ChangeType
  text : String
  lineNum : Nat
deriving DecidableEq, Repr

/-- Row update for the LCS dynamic-programming table: given row `i`
(`prev`), computes entry `j` of row `i+1`.  Mirrors the inner loop of the
source `computeLCS`. -/
def lcsRow (oldLines newLines : List String) (prev : Nat → Nat) (i : Nat) : Nat → Nat
  | 0 => 0
  | j + 1 =>
    if oldLines.getD i "" = newLines.getD j "" then prev j + 1
    else max (prev (j + 1)) (lcsRow oldLines newLines prev i j)

/-- The LCS table of the source `computeLCS`, as a function:
`computeLCS old new i j` is `dp[i][j]`, the LCS length of the first `i` old
lines and the first `j` new lines. -/
def computeLCS (oldLines newLines : List String) : Nat → Nat → Nat
  | 0 => fun _ => 0
  | i + 1 => lcsRow oldLines newLines (computeLCS oldLines newLines i) i

/-- The backtracking loop of the source `buildChanges`, producing the
`reversed` list (last change first).  The loop runs while `i > 0 || j > 0`
and each iteration decreases `i + j`, so a fuel of `i + j` is exact;
`fuel` only bounds the iteration count and does not alter the result. -/
def backtrackAux (oldLines newLines : List String) : Nat → Nat → Nat → List Change
  | 0, _, _ => []
  | fuel + 1, i, j =>
    if i = 0 ∧ j = 0 then []
    else if 0 < i ∧ 0 < j ∧ oldLines.getD (i - 1) "" = newLines.getD (j - 1) "" then
      backtrackAux oldLines newLines fuel (i - 1) (j - 1)
    else if 0 < j ∧ (i = 0 ∨ computeLCS oldLines newLines (i - 1) j ≤ computeLCS oldLines newLines i (j - 1)) then
      ⟨ChangeType.add, newLines.getD (j - 1) "", j⟩ :: backtrackAux oldLines newLines fuel i (j - 1)
    else if 0 < i then
      ⟨ChangeType.remove, oldLines.getD (i - 1) "", i⟩ :: backtrackAux oldLines newLines fuel (i - 1) j
    else []

/-- The source `buildChanges`: backtrack from `(m, n)` and reverse to get
the changes in forward order. -/
def buildChanges (oldLines newLines : List String) : List Change :=
  (backtrackAux oldLines newLines (oldLines.length + newLines.length)
    oldLines.length newLines.length).reverse

def isAdd (c : Change) : Bool :=
  match c.type with
  | ChangeType.add => true
  | ChangeType.remove => false

def isRemove (c : Change) : Bool := !(isAdd c)

/-- Number of `add` entries (the `additions` counter of `generateDiff`). -/
def countAdds (cs : List Change) : Nat := cs.countP isAdd

/-- Number of `remove` entries (the `deletions` counter of `generateDiff`). -/
def countRemoves (cs : List Change) : Nat := cs.countP isRemove

/-- The data part of the source `generateDiff` result (the ANSI-formatted
string is display only and omitted): the early return on identical text,
otherwise the change list with its add/remove counts. -/
structure DiffResult where
  hasChanges : Bool
  additions : Nat
  deletions : Nat
  changes : List Change
deriving Repr

def generateDiff (oldText newText : String) : DiffResult :=
  if oldText = newText then ⟨false, 0, 0, []⟩
  else
    let cs := buildChanges (oldText.splitOn "\n") (newText.splitOn "\n")
    ⟨true, countAdds cs, countRemoves cs, cs⟩

/-- Applies a change list to the old lines, processing the list from its
last element backwards (line numbers are absolute, so application order is
immaterial): an `add` at new-line-number `j` inserts its text so that it
lands at position `j`, a `remove` at old-line-number `i` drops old line `i`,
and all other old lines are kept; `jt` is the length of the target. -/
def applyRev : List String → List Change → Nat → List String
  | acc, [], _ => acc
  | acc, ⟨ChangeType.add, t, ln⟩ :: cs, jt =>
    applyRev (acc.take (acc.length - (jt - ln))) cs (ln - 1)
      ++ t :: acc.drop (acc.length - (jt - ln))
  | acc, ⟨ChangeType.remove, _, ln⟩ :: cs, jt =>
    applyRev (acc.take (ln - 1)) cs (jt - (acc.length - ln)) ++ acc.drop ln

/-- Patch application: inserts every add, drops every remove, keeps common
lines.  The target length is determined by the change list itself. -/
def applyChanges (oldLines : List String) (cs : List Change) : List String :=
  applyRev oldLines cs.reverse (oldLines.length + countAdds cs - countRemoves cs)

/-! ### Lemmas about the backtracking change builder -/

theorem take_succ_getD (l : List String) : ∀ k : Nat, k < l.length →
    l.take (k + 1) = l.take k ++ [l.getD k ""] := by
  induction l with
  | nil => intro k hk; simp at hk
  | cons a l ih =>
    intro k hk
    cases k with
    | zero => simp
    | succ k =>
      simp only [List.take_succ_cons, List.getD_cons_succ]
      rw [ih k (by simpa using hk)]
      simp

theorem drop_take_succ (l : List String) (d k : Nat) (hd : d ≤ k) (hk : k < l.length) :
    (l.take (k + 1)).drop d = (l.take k).drop d ++ [l.getD k ""] := by
  rw [take_succ_getD l k hk, List.drop_append_eq_append_drop]
  have hlen : (l.take k).length = k := by
    simp [List.length_take, Nat.min_eq_left (Nat.le_of_lt hk)]
  rw [hlen, Nat.sub_eq_zero_of_le hd]
  simp

/-- Every line number emitted by the backtrack at state `(i, j)` is within
`[1, j]` for an add and `[1, i]` for a remove. -/
theorem backtrackAux_lineNum_bounds (A B : List String) : ∀ (fuel i j : Nat),
    ∀ c ∈ backtrackAux A B fuel i j,
      (c.type = ChangeType.add → 1 ≤ c.lineNum ∧ c.lineNum ≤ j) ∧
      (c.type = ChangeType.remove → 1 ≤ c.lineNum ∧ c.lineNum ≤ i) := by
  intro fuel
  induction fuel with
  | zero => intro i j c hc; simp [backtrackAux] at hc
  | succ n ih =>
    intro i j c hc
    rw [backtrackAux] at hc
    split_ifs at hc with h0 hctx haddc hremc
    · simp at hc
    · have := ih (i - 1) (j - 1) c hc
      exact ⟨fun ht => ⟨(this.1 ht).1, Nat.le_trans (this.1 ht).2 (Nat.sub_le j 1)⟩,
             fun ht => ⟨(this.2 ht).1, Nat.le_trans (this.2 ht).2 (Nat.sub_le i 1)⟩⟩
    · rcases List.mem_cons.mp hc with rfl | hc
      · exact ⟨fun _ => ⟨haddc.1, Nat.le_refl j⟩, fun ht => by simp at ht⟩
      · have := ih i (j - 1) c hc
        exact ⟨fun ht => ⟨(this.1 ht).1, Nat.le_trans (this.1 ht).2 (Nat.sub_le j 1)⟩,
               fun ht => this.2 ht⟩
    · rcases List.mem_cons.mp hc with rfl | hc
      · exact ⟨fun ht => by simp at ht, fun _ => ⟨hremc, Nat.le_refl i⟩⟩
      · have := ih (i - 1) j c hc
        exact ⟨fun ht => this.1 ht,
               fun ht => ⟨(this.2 ht).1, Nat.le_trans (this.2 ht).2 (Nat.sub_le i 1)⟩⟩
    · simp at hc

/-- Conservation of line counts along the backtrack: consumed old lines
plus adds equals consumed new lines plus removes. -/
theorem backtrackAux_count (A B : List String) : ∀ (fuel i j : Nat), i + j ≤ fuel →
    i + countAdds (backtrackAux A B fuel i j)
      = j + countRemoves (backtrackAux A B fuel i j) := by
  intro fuel
  induction fuel with
  | zero =>
    intro i j hij
    have hi : i = 0 := by omega
    have hj : j = 0 := by omega
    subst hi; subst hj
    simp [backtrackAux, countAdds, countRemoves]
  | succ n ih =>
    intro i j hij
    rw [backtrackAux]
    split_ifs with h0 hctx haddc hremc
    · simp [countAdds, countRemoves]; omega
    · have := ih (i - 1) (j - 1) (by omega)
      omega
    · have := ih i (j - 1) (by omega)
      simp only [countAdds, countRemoves, List.countP_cons, isAdd, isRemove] at this ⊢
      simp at this ⊢
      omega
    · have := ih (i - 1) j (by omega)
      simp only [countAdds, countRemoves, List.countP_cons, isAdd, isRemove] at this ⊢
      simp at this ⊢
      omega
    · exfalso; omega

/-- Main invariant of the backtrack: applying the changes produced from
state `(i, j)` to the first `i` old lines yields the first `j` new lines. -/
theorem applyRev_backtrackAux (A B : List String) : ∀ (fuel i j : Nat),
    i + j ≤ fuel → i ≤ A.length → j ≤ B.length →
    applyRev (A.take i) (backtrackAux A B fuel i j) j = B.take j := by
  intro fuel
  induction fuel with
  | zero =>
    intro i j hij hi hj
    have h1 : i = 0 := by omega
    have h2 : j = 0 := by omega
    subst h1; subst h2
    simp [backtrackAux, applyRev]
  | succ n ih =>
    intro i j hij hi hj
    rw [backtrackAux]
    split_ifs with h0 hctx haddc hremc
    · obtain ⟨rfl, rfl⟩ := h0
      simp [applyRev]
    · obtain ⟨hi0, hj0, heq⟩ := hctx
      have hitake : i - 1 < A.length := by omega
      have hjtake : j - 1 < B.length := by omega
      have eA : A.take i = A.take (i - 1) ++ [A.getD (i - 1) ""] := by
        have h := take_succ_getD A (i - 1) hitake
        rwa [Nat.sub_add_cancel hi0] at h
      have eB : B.take j = B.take (j - 1) ++ [B.getD (j - 1) ""] := by
        have h := take_succ_getD B (j - 1) hjtake
        rwa [Nat.sub_add_cancel hj0] at h
      have IH := ih (i - 1) (j - 1) (by omega) (by omega) (by omega)
      revert IH
      rcases hCS : backtrackAux A B n (i - 1) (j - 1) with _ | ⟨⟨ct, t, ln⟩, cs⟩
      · intro IH
        simp only [applyRev] at IH ⊢
        rw [eA, eB, IH, heq]
      · have hb := backtrackAux_lineNum_bounds A B n (i - 1) (j - 1) ⟨ct, t, ln⟩
          (by rw [hCS]; exact List.mem_cons_self _ _)
        intro IH
        cases ct with
        | add =>
          have hln : 1 ≤ ln ∧ ln ≤ j - 1 := hb.1 rfl
          simp only [applyRev] at IH ⊢
          have hlen1 : (A.take i).length = i := by
            simp [Nat.min_eq_left hi]
          have hlen2 : (A.take (i - 1)).length = i - 1 := by
            simp [Nat.min_eq_left (by omega : i - 1 ≤ A.length)]
          rw [hlen1]
          rw [hlen2] at IH
          have e3 : (i - 1) - ((j - 1) - ln) = i - (j - ln) := by omega
          rw [e3] at IH
          have ht1 : (A.take i).take (i - (j - ln)) = A.take (i - (j - ln)) := by
            rw [List.take_take, Nat.min_eq_left (by omega)]
          have ht2 : (A.take (i - 1)).take (i - (j - ln)) = A.take (i - (j - ln)) := by
            rw [List.take_take, Nat.min_eq_left (by omega)]
          have hdrop : (A.take i).drop (i - (j - ln))
              = (A.take (i - 1)).drop (i - (j - ln)) ++ [A.getD (i - 1) ""] := by
            have h := drop_take_succ A (i - (j - ln)) (i - 1) (by omega) hitake
            rwa [Nat.sub_add_cancel hi0] at h
          rw [ht1, hdrop]
          rw [ht2] at IH
          rw [eB, ← IH, ← heq]
          simp
        | remove =>
          have hln : 1 ≤ ln ∧ ln ≤ i - 1 := hb.2 rfl
          simp only [applyRev] at IH ⊢
          have hlen1 : (A.take i).length = i := by
            simp [Nat.min_eq_left hi]
          have hlen2 : (A.take (i - 1)).length = i - 1 := by
            simp [Nat.min_eq_left (by omega : i - 1 ≤ A.length)]
          rw [hlen1]
          rw [hlen2] at IH
          have e3 : (j - 1) - ((i - 1) - ln) = j - (i - ln) := by omega
          rw [e3] at IH
          have ht1 : (A.take i).take (ln - 1) = A.take (ln - 1) := by
            rw [List.take_take, Nat.min_eq_left (by omega)]
          have ht2 : (A.take (i - 1)).take (ln - 1) = A.take (ln - 1) := by
            rw [List.take_take, Nat.min_eq_left (by omega)]
          have hdrop : (A.take i).drop ln
              = (A.take (i - 1)).drop ln ++ [A.getD (i - 1) ""] := by
            have h := drop_take_succ A ln (i - 1) (by omega) hitake
            rwa [Nat.sub_add_cancel hi0] at h
          rw [ht1, hdrop]
          rw [ht2] at IH
          rw [eB, ← IH, ← heq]
          simp
    · obtain ⟨hj0, _⟩ := haddc
      have hjtake : j - 1 < B.length := by omega
      have eB : B.take j = B.take (j - 1) ++ [B.getD (j - 1) ""] := by
        have h := take_succ_getD B (j - 1) hjtake
        rwa [Nat.sub_add_cancel hj0] at h
      have IH := ih i (j - 1) (by omega) hi (by omega)
      simp only [applyRev]
      have hlen1 : (A.take i).length = i := by simp [Nat.min_eq_left hi]
      rw [hlen1, Nat.sub_self, Nat.sub_zero]
      have hdrop : (A.take i).drop i = [] :=
        List.drop_eq_nil_of_le (by rw [hlen1])
      rw [List.take_take, Nat.min_self, hdrop, IH, eB]
    · have IH := ih (i - 1) j (by omega) (by omega) hj
      simp only [applyRev]
      have hlen1 : (A.take i).length = i := by simp [Nat.min_eq_left hi]
      rw [hlen1, Nat.sub_self, Nat.sub_zero]
      have hdrop : (A.take i).drop i = [] :=
        List.drop_eq_nil_of_le (by rw [hlen1])
      rw [List.take_take, Nat.min_eq_left (Nat.sub_le i 1), hdrop, List.append_nil, IH]
    · exfalso; omega

theorem countP_reverse_eq (p : Change → Bool) (l : List Change) :
    l.reverse.countP p = l.countP p := by
  induction l with
  | nil => rfl
  | cons a l ih =>
    simp [List.countP_cons, List.countP_append, ih]

/-- The list-level round trip: applying the changes built from the LCS
backtrack to the old lines reconstructs the new lines. -/
theorem buildChanges_roundtrip (A B : List String) :
    applyChanges A (buildChanges A B) = B := by
  unfold applyChanges buildChanges
  rw [List.reverse_reverse]
  have hc := backtrackAux_count A B (A.length + B.length) A.length B.length (Nat.le_refl _)
  have hA := countP_reverse_eq isAdd
    (backtrackAux A B (A.length + B.length) A.length B.length)
  have hR := countP_reverse_eq isRemove
    (backtrackAux A B (A.length + B.length) A.length B.length)
  simp only [countAdds, countRemoves] at hc hA hR ⊢
  rw [hA, hR]
  have htarget : A.length
      + (backtrackAux A B (A.length + B.length) A.length B.length).countP isAdd
      - (backtrackAux A B (A.length + B.length) A.length B.length).countP isRemove
      = B.length := by omega
  rw [htarget]
  have h := applyRev_backtrackAux A B (A.length + B.length) A.length B.length
    (Nat.le_refl _) (Nat.le_refl _) (Nat.le_refl _)
  rwa [List.take_length, List.take_length] at h

/-- Claim C1: for every pair of texts `A` and `B`, applying the operations
of `generateDiff A B` to the lines of `A` — inserting the text of every add
at its new-line position, dropping the old line of every remove, keeping
all common lines — reconstructs the lines of `B` exactly, also for inputs
with duplicate lines. -/
theorem c1_diff_roundtrip (A B : String) :
    applyChanges (A.splitOn "\n") (generateDiff A B).changes = B.splitOn "\n" := by
  unfold generateDiff
  by_cases hAB : A = B
  · subst hAB
    simp [applyChanges, applyRev, countAdds, countRemoves]
  · simp only [if_neg hAB]
    exact buildChanges_roundtrip (A.splitOn "\n") (B.splitOn "\n")

/-- Claim C6 counterexample: on the scenario input the change list of the
diff has exactly two entries and contains no step carrying the common lines
"line1" or "line3" — no context step is emitted on either side of the
change, refuting the claim that equal lines met during the backtrack are
emitted as context steps. -/
theorem c6_counterexample :
    (buildChanges ["line1", "line2", "line3"] ["line1", "lineX", "line3"]).length = 2 ∧
    ∀ c ∈ buildChanges ["line1", "line2", "line3"] ["line1", "lineX", "line3"],
      c.text ≠ "line1" ∧ c.text ≠ "line3" := by
  decide

/-- Claim C6 amended: the diff of the scenario input yields exactly one
removal ("line2" at old line 2) and exactly one addition ("lineX" at new
line 2), and nothing else: equal lines met during the LCS backtrack are
skipped without emitting any operation. -/
theorem c6_amended :
    buildChanges ["line1", "line2", "line3"] ["line1", "lineX", "line3"]
      = [⟨ChangeType.remove, "line2", 2⟩, ⟨ChangeType.add, "lineX", 2⟩] ∧
    countAdds (buildChanges ["line1", "line2", "line3"] ["line1", "lineX", "line3"]) = 1 ∧
    countRemoves (buildChanges ["line1", "line2", "line3"] ["line1", "lineX", "line3"]) = 1 := by
  decide

/-! ## Filesystem, fingerprint store and change detection
(src services/hash.ts, commands/pull.ts, commands/sync.ts) -/

/-- State of one tracked file on disk: absent, present but unreadable (a
read throws), or present with readable content (the raw bytes, modelled as
a string). -/
inductive FileState where
  | absent : FileState
  | unreadable : FileState
  | content : String → FileState
deriving DecidableEq, Repr

/-- State of the fingerprint store file (.pull-hashes.json) of one template
directory: missing, present but failing to parse, or parsed to a map from
tracked filename to hex digest. -/
inductive StoreState where
  | missing : StoreState
  | corrupt : StoreState
  | stored : List (String × String) → StoreState
deriving DecidableEq, Repr

/-- One template directory: the tracked files by relative name, plus the
fingerprint store. -/
structure ArtifactFS where
  files : String → FileState
  store : StoreState

/-- The payload of the FileError thrown on a read failure. -/
structure FileErr where
  message : String
  path : String
deriving DecidableEq, Repr

/-- Files tracked for conflict detection. -/
def TRACKED_FILES : List String := ["template.html", "styles.css", "config.json"]

/-- The source computeFileHash: returns the empty string when the file does
not exist, the digest of the content when the read succeeds, and throws a
FileError when the read fails.  The digest function is a parameter. -/
def computeFileHash (hash : String → String) (fs : ArtifactFS) (f : String) :
    Except FileErr String :=
  match fs.files f with
  | FileState.absent => Except.ok ""
  | FileState.unreadable => Except.error ⟨"Failed to compute file hash", f⟩
  | FileState.content d => Except.ok (hash d)

/-- The source loadPullHashes: an empty map when the store file is missing
or fails to parse (both cases return without throwing), otherwise the
parsed map. -/
def loadPullHashes (fs : ArtifactFS) : List (String × String) :=
  match fs.store with
  | StoreState.missing => []
  | StoreState.corrupt => []
  | StoreState.stored m => m

/-- Line count of a text, split on the newline character. -/
def countLines (s : String) : Nat := (s.splitOn "\n").length

/-- The source estimateLinesChanged: reads the current file and reports a
tenth of its line count rounded up, at least 1; the catch branch returns 0
when the read fails.  The floating-point expression ceil(lines * 0.1) is
modelled by the integer ceiling of lines / 10. -/
def estimateLinesChanged (fs : ArtifactFS) (f : String) : Nat :=
  match fs.files f with
  | FileState.content d => max 1 ((countLines d + 9) / 10)
  | _ => 0

/-- The per-file loop of the source detectLocalChanges over a tracked-file
list: a falsy saved hash (no entry, or the empty string) skips the file; an
empty current hash means the file was deleted locally (entry with line
count 0); a differing hash means modified (entry with the line estimate);
the hash computation can throw, which aborts the whole loop. -/
def detectLoop (hash : String → String) (fs : ArtifactFS)
    (saved : List (String × String)) :
    List String → Except FileErr (List (String × Nat))
  | [] => Except.ok []
  | f :: rest =>
    if (saved.lookup f).getD "" = "" then detectLoop hash fs saved rest
    else
      match computeFileHash hash fs f with
      | Except.error e => Except.error e
      | Except.ok current =>
        if current = "" then
          match detectLoop hash fs saved rest with
          | Except.error e => Except.error e
          | Except.ok r => Except.ok ((f, 0) :: r)
        else if current = (saved.lookup f).getD "" then detectLoop hash fs saved rest
        else
          match detectLoop hash fs saved rest with
          | Except.error e => Except.error e
          | Except.ok r => Except.ok ((f, estimateLinesChanged fs f) :: r)

/-- The source detectLocalChanges generalised over the tracked-file list:
load the baseline; an empty map means first pull, hence no conflicts;
otherwise run the per-file loop in tracked order. -/
def detectChanges (hash : String → String) (tracked : List String) (fs : ArtifactFS) :
    Except FileErr (List (String × Nat)) :=
  if (loadPullHashes fs).length = 0 then Except.ok []
  else detectLoop hash fs (loadPullHashes fs) tracked

/-- The source detectLocalChanges on the fixed tracked-file set. -/
def detectLocalChanges (hash : String → String) (fs : ArtifactFS) :
    Except FileErr (List (String × Nat)) :=
  detectChanges hash TRACKED_FILES fs

/-- Classification a change report assigns to a file, as the source
pullCommand renders it: not listed means unchanged; listed with 0 lines
means deleted locally; listed with a positive estimate means modified. -/
inductive FileStatus where
  | unchanged : FileStatus
  | modified : FileStatus
  | deleted : FileStatus
deriving DecidableEq, Repr

def reportStatus (r : List (String × Nat)) (f : String) : FileStatus :=
  match r.lookup f with
  | none => FileStatus.unchanged
  | some 0 => FileStatus.deleted
  | some (_ + 1) => FileStatus.modified

/-- Loop of the source saveCurrentHashes: hashes every tracked file in
order and keeps the non-empty digests. -/
def collectHashes (hash : String → String) (fs : ArtifactFS) :
    List String → Except FileErr (List (String × String))
  | [] => Except.ok []
  | f :: rest =>
    match computeFileHash hash fs f with
    | Except.error e => Except.error e
    | Except.ok h =>
      match collectHashes hash fs rest with
      | Except.error e => Except.error e
      | Except.ok m => if h = "" then Except.ok m else Except.ok ((f, h) :: m)

/-- The source saveCurrentHashes: the map a successful re-stamp writes to
the fingerprint store. -/
def saveCurrentHashes (hash : String → String) (fs : ArtifactFS) :
    Except FileErr (List (String × String)) :=
  collectHashes hash fs TRACKED_FILES

/-- The per-file loop of the source hasLocalChanges (sync command): skips
files with a falsy saved hash and returns true at the first tracked file
whose current hash differs from the saved one. -/
def hasChangesLoop (hash : String → String) (fs : ArtifactFS)
    (saved : List (String × String)) : List String → Except FileErr Bool
  | [] => Except.ok false
  | f :: rest =>
    if (saved.lookup f).getD "" = "" then hasChangesLoop hash fs saved rest
    else
      match computeFileHash hash fs f with
      | Except.error e => Except.error e
      | Except.ok current =>
        if current = (saved.lookup f).getD "" then hasChangesLoop hash fs saved rest
        else Except.ok true

/-- The source hasLocalChanges: false when the baseline map is empty,
otherwise the loop over the tracked files. -/
def hasLocalChanges (hash : String → String) (fs : ArtifactFS) : Except FileErr Bool :=
  if (loadPullHashes fs).length = 0 then Except.ok false
  else hasChangesLoop hash fs (loadPullHashes fs) TRACKED_FILES

/-- Existence test of one file, as Bun.file(path).exists(): false only for
an absent file. -/
def fileExistsB : FileState → Bool
  | FileState.absent => false
  | FileState.unreadable => true
  | FileState.content _ => true

/-- The source templateExistsLocally: looks only at template.html. -/
def templateExistsLocally (fs : ArtifactFS) : Bool :=
  fileExistsB (fs.files "template.html")

/-! ## Backup (src commands/pull.ts backupLocalFiles) -/

/-- The character replacement of the timestamp sanitiser
replace(/[:.]/g, "-"). -/
def sanitizeChar (c : Char) : Char := if c = ':' ∨ c = '.' then '-' else c

def sanitizeTimestamp (ts : String) : String := ts.map sanitizeChar

/-- Copy loop of the source backupLocalFiles: existing files are copied
byte for byte under the same relative name, absent files are silently
skipped, an unreadable file makes the read throw. -/
def copyTracked (fs : ArtifactFS) : List String → Except FileErr (List (String × String))
  | [] => Except.ok []
  | f :: rest =>
    match fs.files f with
    | FileState.absent => copyTracked fs rest
    | FileState.unreadable => Except.error ⟨"read failed", f⟩
    | FileState.content d =>
      match copyTracked fs rest with
      | Except.error e => Except.error e
      | Except.ok r => Except.ok ((f, d) :: r)

/-- The source backupLocalFiles: the timestamp-named snapshot directory
path together with the copied files (relative name and exact bytes). -/
def backupLocalFiles (templateDir ts : String) (fs : ArtifactFS) :
    Except FileErr (String × List (String × String)) :=
  match copyTracked fs TRACKED_FILES with
  | Except.error e => Except.error e
  | Except.ok snap =>
    Except.ok (templateDir ++ "/.backup/" ++ sanitizeTimestamp ts, snap)

/-! ## Bulk sync orchestrator (src commands/sync.ts syncCommand) -/

/-- One template of a bulk sync batch: its local directory state and
whether the remote fetch of its content would succeed. -/
structure TemplateEnv where
  fs : ArtifactFS
  fetchOk : Bool

inductive SyncOutcome where
  | pulled : SyncOutcome
  | skipped : SyncOutcome
  | modified : SyncOutcome
  | failed : SyncOutcome
deriving DecidableEq, Repr

/-- The summary counters of the source syncCommand, in declaration order
pulled, skipped, failed, modified. -/
structure BulkSummary where
  pulled : Nat
  skipped : Nat
  failed : Nat
  modified : Nat
deriving DecidableEq, Repr

def bumpSummary : SyncOutcome → BulkSummary → BulkSummary
  | SyncOutcome.pulled, s => ⟨s.pulled + 1, s.skipped, s.failed, s.modified⟩
  | SyncOutcome.skipped, s => ⟨s.pulled, s.skipped + 1, s.failed, s.modified⟩
  | SyncOutcome.failed, s => ⟨s.pulled, s.skipped, s.failed + 1, s.modified⟩
  | SyncOutcome.modified, s => ⟨s.pulled, s.skipped, s.failed, s.modified + 1⟩

/-- One iteration of the source syncCommand loop: an existing template is
checked for local changes (this check is outside any try/catch, so its
FileError propagates); a missing template is pulled — in dry-run mode the
pull is only counted, otherwise pullSingleTemplate runs and its failure is
caught and counted as failed. -/
def syncTemplate (hash : String → String) (dryRun : Bool) (t : TemplateEnv) :
    Except FileErr SyncOutcome :=
  if templateExistsLocally t.fs then
    match hasLocalChanges hash t.fs with
    | Except.error e => Except.error e
    | Except.ok true => Except.ok SyncOutcome.modified
    | Except.ok false => Except.ok SyncOutcome.skipped
  else if dryRun then Except.ok SyncOutcome.pulled
  else if t.fetchOk then Except.ok SyncOutcome.pulled
  else Except.ok SyncOutcome.failed

/-- The source syncCommand over a batch, returning the summary together
with the number of pullSingleTemplate invocations (each such invocation
performs the remote fetches and the local writes; dry-run performs none).
An uncaught FileError aborts the whole batch. -/
def syncCommand (hash : String → String) (dryRun : Bool) :
    List TemplateEnv → Except FileErr (BulkSummary × Nat)
  | [] => Except.ok (⟨0, 0, 0, 0⟩, 0)
  | t :: rest =>
    match syncTemplate hash dryRun t with
    | Except.error e => Except.error e
    | Except.ok o =>
      match syncCommand hash dryRun rest with
      | Except.error e => Except.error e
      | Except.ok (s, c) =>
        Except.ok (bumpSummary o s,
          (if templateExistsLocally t.fs then 0 else if dryRun then 0 else 1) + c)

/-! ## Claims about the fingerprint store and change detection -/

/-- Claim C2: for every template directory whose fingerprint store file is
missing or fails to parse, loadPullHashes returns the empty map (it is a
total function — the source returns the empty object in both cases instead
of throwing), and change detection returns the empty change list without
reading any tracked file, regardless of the on-disk contents. -/
theorem c2_empty_store_no_conflicts (hash : String → String) (fs : ArtifactFS)
    (h : fs.store = StoreState.missing ∨ fs.store = StoreState.corrupt) :
    loadPullHashes fs = [] ∧ detectLocalChanges hash fs = Except.ok [] := by
  have hload : loadPullHashes fs = [] := by
    rcases h with h | h <;> simp [loadPullHashes, h]
  refine ⟨hload, ?_⟩
  simp [detectLocalChanges, detectChanges, hload]

/-- Witness for C2: a directory with tracked files on disk but a missing
store file yields the empty map and an empty change report. -/
theorem c2_witness :
    loadPullHashes ⟨fun _ => FileState.content "x", StoreState.missing⟩ = [] ∧
    detectLocalChanges (fun s => s)
      ⟨fun _ => FileState.content "x", StoreState.missing⟩ = Except.ok [] :=
  c2_empty_store_no_conflicts (fun s => s)
    ⟨fun _ => FileState.content "x", StoreState.missing⟩ (Or.inl rfl)

theorem collectHashes_lookup (hash : String → String) (fs : ArtifactFS) :
    ∀ (L : List String) (m : List (String × String)),
      collectHashes hash fs L = Except.ok m →
      ∀ f v, m.lookup f = some v →
        computeFileHash hash fs f = Except.ok v ∧ v ≠ "" := by
  intro L
  induction L with
  | nil =>
    intro m hm f v hl
    simp only [collectHashes] at hm
    cases hm
    simp [List.lookup] at hl
  | cons g rest ih =>
    intro m hm f v hl
    simp only [collectHashes] at hm
    cases hg : computeFileHash hash fs g with
    | error e => rw [hg] at hm; cases hm
    | ok h =>
      rw [hg] at hm
      cases hrest : collectHashes hash fs rest with
      | error e => rw [hrest] at hm; cases hm
      | ok m2 =>
        rw [hrest] at hm
        dsimp only at hm
        by_cases hh : h = ""
        · rw [if_pos hh] at hm
          cases hm
          exact ih _ hrest f v hl
        · rw [if_neg hh] at hm
          cases hm
          by_cases hfg : f = g
          · subst hfg
            simp [List.lookup] at hl
            subst hl
            exact ⟨hg, hh⟩
          · have hbeq : (f == g) = false := by
              simp [hfg]
            rw [List.lookup, hbeq] at hl
            exact ih m2 hrest f v hl
  
theorem detectLoop_of_current (hash : String → String) (fs : ArtifactFS)
    (m : List (String × String))
    (hm : ∀ f v, m.lookup f = some v →
      computeFileHash hash fs f = Except.ok v ∧ v ≠ "") :
    ∀ L, detectLoop hash fs m L = Except.ok [] := by
  intro L
  induction L with
  | nil => rfl
  | cons f rest ih =>
    simp only [detectLoop]
    by_cases h0 : (m.lookup f).getD "" = ""
    · rw [if_pos h0]; exact ih
    · rw [if_neg h0]
      cases hl : m.lookup f with
      | none => rw [hl] at h0; simp at h0
      | some v =>
        have hv := hm f v hl
        rw [hl] at h0
        simp only [Option.getD_some] at h0
        rw [hv.1]
        dsimp only [Option.getD_some]
        rw [if_neg hv.2, if_pos rfl]
        exact ih

/-- Claim C7: immediately after a successful overwrite write followed by
the fingerprint re-stamp (saveCurrentHashes writing map `m` to the store),
re-running change detection on the unchanged on-disk state reports an
empty change list. -/
theorem c7_restamp_unchanged (hash : String → String) (fs : ArtifactFS)
    (m : List (String × String)) (h : saveCurrentHashes hash fs = Except.ok m) :
    detectLocalChanges hash ⟨fs.files, StoreState.stored m⟩ = Except.ok [] := by
  have hm := collectHashes_lookup hash fs TRACKED_FILES m h
  unfold detectLocalChanges detectChanges
  by_cases hlen : (loadPullHashes ⟨fs.files, StoreState.stored m⟩).length = 0
  · rw [if_pos hlen]
  · rw [if_neg hlen]
    exact detectLoop_of_current hash ⟨fs.files, StoreState.stored m⟩ m hm TRACKED_FILES

/-- Witness for C7: re-stamping a directory holding template.html and
styles.css (config.json absent) and re-running detection reports nothing. -/
theorem c7_witness :
    detectLocalChanges (fun s => s)
      ⟨fun f => if f = "template.html" then FileState.content "x"
        else if f = "styles.css" then FileState.content "y" else FileState.absent,
       StoreState.stored [("template.html", "x"), ("styles.css", "y")]⟩
      = Except.ok [] :=
  c7_restamp_unchanged (fun s => s)
    ⟨fun f => if f = "template.html" then FileState.content "x"
      else if f = "styles.css" then FileState.content "y" else FileState.absent,
     StoreState.missing⟩
    [("template.html", "x"), ("styles.css", "y")] rfl

theorem detectLoop_error_of_unreadable (hash : String → String) (fs : ArtifactFS)
    (saved : List (String × String)) :
    ∀ (L : List String) (f : String), f ∈ L →
      (saved.lookup f).getD "" ≠ "" → fs.files f = FileState.unreadable →
      ∃ e, detectLoop hash fs saved L = Except.error e := by
  intro L
  induction L with
  | nil => intro f hf; simp at hf
  | cons g rest ih =>
    intro f hf hs hr
    simp only [detectLoop]
    by_cases hg0 : (saved.lookup g).getD "" = ""
    · rw [if_pos hg0]
      rcases List.mem_cons.mp hf with rfl | hf
      · exact absurd hg0 hs
      · exact ih f hf hs hr
    · rw [if_neg hg0]
      rcases List.mem_cons.mp hf with rfl | hf
      · have hcf : computeFileHash hash fs f
            = Except.error ⟨"Failed to compute file hash", f⟩ := by
          simp [computeFileHash, hr]
        rw [hcf]
        exact ⟨_, rfl⟩
      · obtain ⟨e, he⟩ := ih f hf hs hr
        cases hcg : computeFileHash hash fs g with
        | error e2 => exact ⟨e2, rfl⟩
        | ok current =>
          dsimp only
          by_cases h1 : current = ""
          · rw [if_pos h1, he]
            exact ⟨e, rfl⟩
          · rw [if_neg h1]
            by_cases h2 : current = (saved.lookup g).getD ""
            · rw [if_pos h2]
              exact ⟨e, he⟩
            · rw [if_neg h2, he]
              exact ⟨e, rfl⟩

/-- Claim C5 amended: when reading a tracked file that has a non-falsy
baseline entry fails, the FileError propagates out of change detection:
the detector returns the error rather than classifying the file as
modified, and no report is produced for the remaining files. -/
theorem c5_amended (hash : String → String) (tracked : List String)
    (fs : ArtifactFS) (f : String) (hf : f ∈ tracked)
    (hsaved : ((loadPullHashes fs).lookup f).getD "" ≠ "")
    (hread : fs.files f = FileState.unreadable) :
    ∃ e, detectChanges hash tracked fs = Except.error e := by
  have hne : ¬(loadPullHashes fs).length = 0 := by
    intro h0
    rw [List.length_eq_zero.mp h0] at hsaved
    simp [List.lookup] at hsaved
  unfold detectChanges
  rw [if_neg hne]
  exact detectLoop_error_of_unreadable hash fs (loadPullHashes fs) tracked f hf hsaved hread

/-- Claim C5 counterexample: with template.html unreadable (a read
failure, the file exists) and carrying a baseline entry, and styles.css
modified relative to its baseline entry, change detection throws the
FileError: the unreadable file is not classified as modified, and
styles.css is never examined — detection does not complete. -/
theorem c5_counterexample :
    detectLocalChanges (fun s => s)
      ⟨fun f => if f = "template.html" then FileState.unreadable
        else FileState.content "x",
       StoreState.stored [("template.html", "h1"), ("styles.css", "zzz")]⟩
      = Except.error ⟨"Failed to compute file hash", "template.html"⟩ := rfl

/-- Witness for C5 (amended): a concrete directory where the first tracked
file is unreadable and has a baseline entry makes detection return an
error. -/
theorem c5_witness :
    ∃ e, detectChanges (fun s => s) TRACKED_FILES
      ⟨fun f => if f = "template.html" then FileState.unreadable
        else FileState.content "x",
       StoreState.stored [("template.html", "h1")]⟩ = Except.error e :=
  c5_amended (fun s => s) TRACKED_FILES
    ⟨fun f => if f = "template.html" then FileState.unreadable
      else FileState.content "x",
     StoreState.stored [("template.html", "h1")]⟩
    "template.html" (by simp [TRACKED_FILES]) (by simp [loadPullHashes, List.lookup])
    (by simp)

theorem detectLoop_fst_sublist (hash : String → String) (fs : ArtifactFS)
    (saved : List (String × String)) :
    ∀ (L : List String) (r : List (String × Nat)),
      detectLoop hash fs saved L = Except.ok r → (r.map Prod.fst).Sublist L := by
  intro L
  induction L with
  | nil =>
    intro r h
    simp only [detectLoop] at h
    cases h
    simp
  | cons g rest ih =>
    intro r h
    simp only [detectLoop] at h
    by_cases hg : (saved.lookup g).getD "" = ""
    · rw [if_pos hg] at h
      exact List.Sublist.cons g (ih r h)
    · rw [if_neg hg] at h
      cases hc : computeFileHash hash fs g with
      | error e => rw [hc] at h; cases h
      | ok current =>
        rw [hc] at h
        dsimp only at h
        by_cases h1 : current = ""
        · rw [if_pos h1] at h
          cases hr : detectLoop hash fs saved rest with
          | error e => rw [hr] at h; cases h
          | ok r2 =>
            rw [hr] at h
            cases h
            simpa using List.Sublist.cons₂ g (ih r2 hr)
        · rw [if_neg h1] at h
          by_cases h2 : current = (saved.lookup g).getD ""
          · rw [if_pos h2] at h
            exact List.Sublist.cons g (ih r h)
          · rw [if_neg h2] at h
            cases hr : detectLoop hash fs saved rest with
            | error e => rw [hr] at h; cases h
            | ok r2 =>
              rw [hr] at h
              cases h
              simpa using List.Sublist.cons₂ g (ih r2 hr)

theorem detectLoop_mem_baseline (hash : String → String) (fs : ArtifactFS)
    (saved : List (String × String)) :
    ∀ (L : List String) (r : List (String × Nat)),
      detectLoop hash fs saved L = Except.ok r →
      ∀ p ∈ r, (saved.lookup p.1).getD "" ≠ "" := by
  intro L
  induction L with
  | nil =>
    intro r h p hp
    simp only [detectLoop] at h
    cases h
    simp at hp
  | cons g rest ih =>
    intro r h p hp
    simp only [detectLoop] at h
    by_cases hg : (saved.lookup g).getD "" = ""
    · rw [if_pos hg] at h
      exact ih r h p hp
    · rw [if_neg hg] at h
      cases hc : computeFileHash hash fs g with
      | error e => rw [hc] at h; cases h
      | ok current =>
        rw [hc] at h
        dsimp only at h
        by_cases h1 : current = ""
        · rw [if_pos h1] at h
          cases hr : detectLoop hash fs saved rest with
          | error e => rw [hr] at h; cases h
          | ok r2 =>
            rw [hr] at h
            cases h
            rcases List.mem_cons.mp hp with rfl | hp
            · exact hg
            · exact ih r2 hr p hp
        · rw [if_neg h1] at h
          by_cases h2 : current = (saved.lookup g).getD ""
          · rw [if_pos h2] at h
            exact ih r h p hp
          · rw [if_neg h2] at h
            cases hr : detectLoop hash fs saved rest with
            | error e => rw [hr] at h; cases h
            | ok r2 =>
              rw [hr] at h
              cases h
              rcases List.mem_cons.mp hp with rfl | hp
              · exact hg
              · exact ih r2 hr p hp

theorem detectLoop_deleted (hash : String → String) (fs : ArtifactFS)
    (saved : List (String × String)) :
    ∀ (L : List String) (f : String) (r : List (String × Nat)),
      f ∈ L → detectLoop hash fs saved L = Except.ok r →
      (saved.lookup f).getD "" ≠ "" → fs.files f = FileState.absent →
      (f, 0) ∈ r := by
  intro L
  induction L with
  | nil => intro f r hf; simp at hf
  | cons g rest ih =>
    intro f r hf h hs habs
    simp only [detectLoop] at h
    rcases List.mem_cons.mp hf with rfl | hf
    · rw [if_neg hs] at h
      have hcf : computeFileHash hash fs f = Except.ok "" := by
        simp [computeFileHash, habs]
      rw [hcf] at h
      dsimp only at h
      rw [if_pos rfl] at h
      cases hr : detectLoop hash fs saved rest with
      | error e => rw [hr] at h; cases h
      | ok r2 =>
        rw [hr] at h
        cases h
        exact List.mem_cons_self _ _
    · by_cases hg : (saved.lookup g).getD "" = ""
      · rw [if_pos hg] at h
        exact ih f r hf h hs habs
      · rw [if_neg hg] at h
        cases hc : computeFileHash hash fs g with
        | error e => rw [hc] at h; cases h
        | ok current =>
          rw [hc] at h
          dsimp only at h
          by_cases h1 : current = ""
          · rw [if_pos h1] at h
            cases hr : detectLoop hash fs saved rest with
            | error e => rw [hr] at h; cases h
            | ok r2 =>
              rw [hr] at h
              cases h
              exact List.mem_cons_of_mem _ (ih f r2 hf hr hs habs)
          · rw [if_neg h1] at h
            by_cases h2 : current = (saved.lookup g).getD ""
            · rw [if_pos h2] at h
              exact ih f r hf h hs habs
            · rw [if_neg h2] at h
              cases hr : detectLoop hash fs saved rest with
              | error e => rw [hr] at h; cases h
              | ok r2 =>
                rw [hr] at h
                cases h
                exact List.mem_cons_of_mem _ (ih f r2 hf hr hs habs)

/-- Claim C9: (1) the scenario — tracked files a.txt and b.txt, baseline
map with entries H1, H2; a.txt edited so its current digest differs from
H1 while b.txt still matches H2: detection reports exactly a.txt as
modified (a single entry, trivially in tracked order) and b.txt as
unchanged; (2) the report always follows the tracked-file declaration
order (its file names form a sublist of the tracked list); (3) a tracked
file without a (non-falsy) baseline entry is never reported, hence treated
unchanged; (4) a tracked file whose current fingerprint is the absent
sentinel is reported as deleted (entry 0) when its baseline entry exists. -/
theorem c9_detect_spec :
    (∀ (hash : String → String) (da db H1 H2 : String),
      H1 ≠ "" → hash da ≠ H1 → hash da ≠ "" → hash db = H2 →
      ∃ n, detectChanges hash ["a.txt", "b.txt"]
          ⟨fun f => if f = "a.txt" then FileState.content da
            else if f = "b.txt" then FileState.content db else FileState.absent,
           StoreState.stored [("a.txt", H1), ("b.txt", H2)]⟩
          = Except.ok [("a.txt", n)] ∧
        reportStatus [("a.txt", n)] "a.txt" = FileStatus.modified ∧
        reportStatus [("a.txt", n)] "b.txt" = FileStatus.unchanged) ∧
    (∀ (hash : String → String) (tracked : List String) (fs : ArtifactFS) r,
      detectChanges hash tracked fs = Except.ok r →
      (r.map Prod.fst).Sublist tracked) ∧
    (∀ (hash : String → String) (tracked : List String) (fs : ArtifactFS) r,
      detectChanges hash tracked fs = Except.ok r →
      ∀ p ∈ r, ((loadPullHashes fs).lookup p.1).getD "" ≠ "") ∧
    (∀ (hash : String → String) (tracked : List String) (fs : ArtifactFS) r f,
      detectChanges hash tracked fs = Except.ok r →
      f ∈ tracked → fs.files f = FileState.absent →
      ((loadPullHashes fs).lookup f).getD "" ≠ "" → (f, 0) ∈ r) := by
  refine ⟨?_, ?_, ?_, ?_⟩
  · intro hash da db H1 H2 hH1 hda1 hda2 hdb
    obtain ⟨k, hk⟩ : ∃ k, estimateLinesChanged
        ⟨fun f => if f = "a.txt" then FileState.content da
          else if f = "b.txt" then FileState.content db else FileState.absent,
         StoreState.stored [("a.txt", H1), ("b.txt", H2)]⟩ "a.txt" = k + 1 := by
      refine ⟨(max 1 ((countLines da + 9) / 10)) - 1, ?_⟩
      simp only [estimateLinesChanged]
      norm_num
    refine ⟨k + 1, ?_, by simp [reportStatus, List.lookup], by simp [reportStatus, List.lookup]⟩
    rw [← hk]
    simp only [detectChanges, loadPullHashes]
    rw [if_neg (by simp)]
    simp only [detectLoop, List.lookup]
    norm_num
    rw [if_neg hH1]
    have hca : computeFileHash hash
        ⟨fun f => if f = "a.txt" then FileState.content da
          else if f = "b.txt" then FileState.content db else FileState.absent,
         StoreState.stored [("a.txt", H1), ("b.txt", H2)]⟩ "a.txt"
        = Except.ok (hash da) := by
      simp [computeFileHash]
    have hcb : computeFileHash hash
        ⟨fun f => if f = "a.txt" then FileState.content da
          else if f = "b.txt" then FileState.content db else FileState.absent,
         StoreState.stored [("a.txt", H1), ("b.txt", H2)]⟩ "b.txt"
        = Except.ok (hash db) := by
      simp [computeFileHash]
    rw [hca, hcb]
    dsimp only
    rw [if_neg hda2, if_neg hda1, hdb]
    have hbeq : (("b.txt" : String) == "a.txt") = false := by decide
    rw [hbeq]
    dsimp only [Option.getD_some]
    by_cases hH2 : H2 = ""
    · rw [if_pos hH2]
    · rw [if_neg hH2, if_pos rfl, if_neg hH2]
  · intro hash tracked fs r h
    unfold detectChanges at h
    by_cases hlen : (loadPullHashes fs).length = 0
    · rw [if_pos hlen] at h
      cases h
      simp
    · rw [if_neg hlen] at h
      exact detectLoop_fst_sublist hash fs (loadPullHashes fs) tracked r h
  · intro hash tracked fs r h p hp
    unfold detectChanges at h
    by_cases hlen : (loadPullHashes fs).length = 0
    · rw [if_pos hlen] at h
      cases h
      simp at hp
    · rw [if_neg hlen] at h
      exact detectLoop_mem_baseline hash fs (loadPullHashes fs) tracked r h p hp
  · intro hash tracked fs r f h hf habs hs
    unfold detectChanges at h
    by_cases hlen : (loadPullHashes fs).length = 0
    · rw [List.length_eq_zero.mp hlen] at hs
      simp [List.lookup] at hs
    · rw [if_neg hlen] at h
      exact detectLoop_deleted hash fs (loadPullHashes fs) tracked f r hf h hs habs

/-- Witness for C9: the scenario part applied at a concrete directory —
a.txt edited away from baseline h1, b.txt matching baseline h2 (digest
function prefixing "h" to the content). -/
theorem c9_witness :
    ∃ n, detectChanges (fun s => "h" ++ s) ["a.txt", "b.txt"]
        ⟨fun f => if f = "a.txt" then FileState.content "EDITED"
          else if f = "b.txt" then FileState.content "2" else FileState.absent,
         StoreState.stored [("a.txt", "h1"), ("b.txt", "h2")]⟩
        = Except.ok [("a.txt", n)] ∧
      reportStatus [("a.txt", n)] "a.txt" = FileStatus.modified ∧
      reportStatus [("a.txt", n)] "b.txt" = FileStatus.unchanged :=
  c9_detect_spec.1 (fun s => "h" ++ s) "EDITED" "2" "h1" "h2"
    (by decide) (by decide) (by decide) (by decide)

/-! ## Claims about the bulk sync orchestrator -/

/-- Claim C3 counterexample: a 2-template batch where the first template
exists locally but its tracked template.html is unreadable while carrying
a baseline entry — the FileError thrown by the local change check is not
caught by the sync loop, so the whole batch aborts with the error: the
first template is not counted as failed and the second template (a
pullable missing template) is never processed. -/
theorem c3_counterexample :
    syncCommand (fun s => s) false
      [⟨⟨fun f => if f = "template.html" then FileState.unreadable else FileState.absent,
          StoreState.stored [("template.html", "h1")]⟩, true⟩,
       ⟨⟨fun _ => FileState.absent, StoreState.missing⟩, true⟩]
      = Except.error ⟨"Failed to compute file hash", "template.html"⟩ := rfl

/-- Claim C3 amended: a fetch failure while pulling one template never
aborts the batch — whenever the local change check succeeds on every
locally existing template, bulk sync returns a summary (pull failures are
caught and counted as failed); an error thrown by the change check itself
aborts the batch.  The 3-template scenario — template 1 with no local
copy, template 2 locally modified, template 3 with a failing fetch —
yields the summary pulled 1, skipped 0, modified 1, failed 1. -/
theorem c3_amended :
    (∀ (hash : String → String) (ts : List TemplateEnv),
      (∀ t ∈ ts, templateExistsLocally t.fs = true →
        (hasLocalChanges hash t.fs).isOk = true) →
      (syncCommand hash false ts).isOk = true) ∧
    syncCommand (fun s => s) false
      [⟨⟨fun _ => FileState.absent, StoreState.missing⟩, true⟩,
       ⟨⟨fun f => if f = "template.html" then FileState.content "NEW" else FileState.absent,
          StoreState.stored [("template.html", "hOLD")]⟩, false⟩,
       ⟨⟨fun _ => FileState.absent, StoreState.missing⟩, false⟩]
      = Except.ok (⟨1, 0, 1, 1⟩, 2) := by
  constructor
  · intro hash ts h
    induction ts with
    | nil => rfl
    | cons t rest ih =>
      have ihr := ih (fun t2 h2 => h t2 (List.mem_cons_of_mem t h2))
      have hst : ∃ o, syncTemplate hash false t = Except.ok o := by
        unfold syncTemplate
        by_cases he : templateExistsLocally t.fs
        · have ht := h t (List.mem_cons_self t rest) he
          rw [if_pos he]
          cases hl : hasLocalChanges hash t.fs with
          | error e => rw [hl] at ht; simp [Except.isOk, Except.toBool] at ht
          | ok b =>
            cases b
            · exact ⟨SyncOutcome.skipped, rfl⟩
            · exact ⟨SyncOutcome.modified, rfl⟩
        · rw [if_neg he]
          by_cases hf : t.fetchOk
          · exact ⟨SyncOutcome.pulled, by simp [hf]⟩
          · exact ⟨SyncOutcome.failed, by simp [hf]⟩
      obtain ⟨o, ho⟩ := hst
      simp only [syncCommand]
      rw [ho]
      cases hr : syncCommand hash false rest with
      | error e => rw [hr] at ihr; simp [Except.isOk, Except.toBool] at ihr
      | ok sc =>
        obtain ⟨s2, c2⟩ := sc
        simp [Except.isOk, Except.toBool]
  · rfl

/-- Claim C4 counterexample: a single-template batch with no local copy
and a failing remote fetch — dry-run counts it as pulled and performs zero
pull invocations, while the real run counts it as failed after one pull
attempt: the per-template classification and the summary differ between
the two modes. -/
theorem c4_counterexample :
    syncCommand (fun s => s) true
      [⟨⟨fun _ => FileState.absent, StoreState.missing⟩, false⟩]
      = Except.ok (⟨1, 0, 0, 0⟩, 0) ∧
    syncCommand (fun s => s) false
      [⟨⟨fun _ => FileState.absent, StoreState.missing⟩, false⟩]
      = Except.ok (⟨0, 0, 1, 0⟩, 1) := ⟨rfl, rfl⟩

/-- Claim C4 amended: dry-run performs zero pullSingleTemplate invocations
(hence zero remote fetches and zero local writes), and it produces the
identical per-template classification and summary counts as the real run
provided every template missing locally would fetch successfully; when a
fetch fails, the real run counts failed where dry-run counts pulled. -/
theorem c4_amended :
    (∀ (hash : String → String) (ts : List TemplateEnv) (s : BulkSummary × Nat),
      syncCommand hash true ts = Except.ok s → s.2 = 0) ∧
    (∀ (hash : String → String) (ts : List TemplateEnv),
      (∀ t ∈ ts, templateExistsLocally t.fs = false → t.fetchOk = true) →
      Except.map Prod.fst (syncCommand hash true ts)
        = Except.map Prod.fst (syncCommand hash false ts)) := by
  constructor
  · intro hash ts
    induction ts with
    | nil =>
      intro s h
      cases h
      rfl
    | cons t rest ih =>
      intro s h
      simp only [syncCommand] at h
      cases hst : syncTemplate hash true t with
      | error e => rw [hst] at h; cases h
      | ok o =>
        rw [hst] at h
        cases hr : syncCommand hash true rest with
        | error e => rw [hr] at h; cases h
        | ok sc =>
          obtain ⟨s2, c2⟩ := sc
          rw [hr] at h
          dsimp only at h
          cases h
          have hc2 := ih (s2, c2) hr
          simp at hc2
          simp [hc2]
  · intro hash ts
    induction ts with
    | nil => intro h; rfl
    | cons t rest ih =>
      intro h
      have ihr := ih (fun t2 h2 => h t2 (List.mem_cons_of_mem t h2))
      have hsame : syncTemplate hash true t = syncTemplate hash false t := by
        unfold syncTemplate
        by_cases he : templateExistsLocally t.fs
        · rw [if_pos he, if_pos he]
        · have hf := h t (List.mem_cons_self t rest) (by simpa using he)
          rw [if_neg he, if_neg he, hf]
          simp
      simp only [syncCommand]
      rw [hsame]
      cases hst : syncTemplate hash false t with
      | error e => rfl
      | ok o =>
        cases h1 : syncCommand hash true rest with
        | error e1 =>
          rw [h1] at ihr
          cases h2 : syncCommand hash false rest with
          | error e2 =>
            rw [h2] at ihr
            simp only [Except.map] at ihr
            cases ihr
            rfl
          | ok sc2 =>
            rw [h2] at ihr
            simp [Except.map] at ihr
        | ok sc1 =>
          obtain ⟨s1, c1⟩ := sc1
          rw [h1] at ihr
          cases h2 : syncCommand hash false rest with
          | error e2 =>
            rw [h2] at ihr
            simp [Except.map] at ihr
          | ok sc2 =>
            obtain ⟨s2, c2⟩ := sc2
            rw [h2] at ihr
            simp only [Except.map] at ihr
            cases ihr
            simp [Except.map]

/-- Witness for C3 (amended, general part): a batch with one missing
template whose fetch fails still returns a summary. -/
theorem c3_witness :
    (syncCommand (fun s => s) false
      [⟨⟨fun _ => FileState.absent, StoreState.missing⟩, false⟩]).isOk = true :=
  c3_amended.1 (fun s => s)
    [⟨⟨fun _ => FileState.absent, StoreState.missing⟩, false⟩]
    (by intro t ht he; simp at ht; rw [ht] at he; simp [templateExistsLocally, fileExistsB] at he)

/-- Witness for C4 (amended): on a batch whose only template exists
locally and is unmodified, dry-run and real run yield the same summary. -/
theorem c4_witness :
    Except.map Prod.fst (syncCommand (fun s => s) true
      [⟨⟨fun f => if f = "template.html" then FileState.content "x" else FileState.absent,
          StoreState.missing⟩, true⟩])
      = Except.map Prod.fst (syncCommand (fun s => s) false
      [⟨⟨fun f => if f = "template.html" then FileState.content "x" else FileState.absent,
          StoreState.missing⟩, true⟩]) :=
  c4_amended.2 (fun s => s)
    [⟨⟨fun f => if f = "template.html" then FileState.content "x" else FileState.absent,
        StoreState.missing⟩, true⟩]
    (by intro t ht he; simp at ht; rw [ht])

/-- Claim C10: whether a template exists locally is decided solely by the
presence of template.html: (1) whatever styles.css, config.json, the
fingerprint store and the fetch flag are, a directory without
template.html takes the pull path of the bulk sync — pulled on a
successful fetch, failed on a failing one, never skipped or modified;
(2) a directory containing only template.html (no styles, no config, no
store file) is treated as present, and with no baseline it is counted
skipped. -/
theorem c10_exists_by_template_html :
    (∀ (hash : String → String) (t : TemplateEnv),
      t.fs.files "template.html" = FileState.absent →
      syncTemplate hash false t
        = Except.ok (if t.fetchOk then SyncOutcome.pulled else SyncOutcome.failed)) ∧
    (∀ (hash : String → String) (d : String) (fOk : Bool),
      syncTemplate hash false
        ⟨⟨fun f => if f = "template.html" then FileState.content d else FileState.absent,
          StoreState.missing⟩, fOk⟩
        = Except.ok SyncOutcome.skipped) := by
  constructor
  · intro hash t habs
    have hex : templateExistsLocally t.fs = false := by
      simp [templateExistsLocally, habs, fileExistsB]
    unfold syncTemplate
    rw [hex]
    cases hf : t.fetchOk <;> simp
  · intro hash d fOk
    have hex : templateExistsLocally
        ⟨fun f => if f = "template.html" then FileState.content d else FileState.absent,
         StoreState.missing⟩ = true := by
      simp [templateExistsLocally, fileExistsB]
    unfold syncTemplate
    rw [hex]
    rfl

/-- Witness for C10 (part 1): a directory holding only styles.css (with a
baseline entry for it) but no template.html is treated as absent and takes
the pull path. -/
theorem c10_witness :
    syncTemplate (fun s => s) false
      ⟨⟨fun f => if f = "styles.css" then FileState.content "css" else FileState.absent,
        StoreState.stored [("styles.css", "h")]⟩, true⟩
      = Except.ok SyncOutcome.pulled :=
  c10_exists_by_template_html.1 (fun s => s)
    ⟨⟨fun f => if f = "styles.css" then FileState.content "css" else FileState.absent,
      StoreState.stored [("styles.css", "h")]⟩, true⟩ rfl

/-! ## Claim about the backup routine -/

theorem string_append_right_inj (a b c : String) (h : a ++ b = a ++ c) : b = c := by
  have hd := congrArg String.data h
  simp only [String.data_append] at hd
  exact String.ext (List.append_cancel_left hd)

theorem copyTracked_ok (fs : ArtifactFS) :
    ∀ L : List String, (∀ f ∈ L, fs.files f ≠ FileState.unreadable) →
      ∃ snap, copyTracked fs L = Except.ok snap := by
  intro L
  induction L with
  | nil => intro _; exact ⟨[], rfl⟩
  | cons g rest ih =>
    intro h
    obtain ⟨snap, hsnap⟩ := ih (fun f hf => h f (List.mem_cons_of_mem g hf))
    have hg := h g (List.mem_cons_self g rest)
    simp only [copyTracked]
    cases hfg : fs.files g with
    | absent => exact ⟨snap, hsnap⟩
    | unreadable => exact absurd hfg hg
    | content d =>
      rw [hsnap]
      exact ⟨(g, d) :: snap, rfl⟩

theorem copyTracked_spec (fs : ArtifactFS) :
    ∀ (L : List String) (snap : List (String × String)),
      copyTracked fs L = Except.ok snap →
      (∀ f ∈ L, ∀ d, fs.files f = FileState.content d → (f, d) ∈ snap) ∧
      (∀ p ∈ snap, p.1 ∈ L ∧ fs.files p.1 = FileState.content p.2) := by
  intro L
  induction L with
  | nil =>
    intro snap h
    simp only [copyTracked] at h
    cases h
    exact ⟨fun f hf => by simp at hf, fun p hp => by simp at hp⟩
  | cons g rest ih =>
    intro snap h
    simp only [copyTracked] at h
    cases hfg : fs.files g with
    | absent =>
      rw [hfg] at h
      obtain ⟨ih1, ih2⟩ := ih snap h
      refine ⟨?_, ?_⟩
      · intro f hf d hd
        rcases List.mem_cons.mp hf with rfl | hf
        · rw [hfg] at hd; cases hd
        · exact ih1 f hf d hd
      · intro p hp
        exact ⟨List.mem_cons_of_mem g (ih2 p hp).1, (ih2 p hp).2⟩
    | unreadable => rw [hfg] at h; cases h
    | content d0 =>
      rw [hfg] at h
      cases hrest : copyTracked fs rest with
      | error e => rw [hrest] at h; cases h
      | ok snap2 =>
        rw [hrest] at h
        cases h
        obtain ⟨ih1, ih2⟩ := ih snap2 hrest
        refine ⟨?_, ?_⟩
        · intro f hf d hd
          rcases List.mem_cons.mp hf with rfl | hf
          · rw [hfg] at hd
            cases hd
            exact List.mem_cons_self _ _
          · exact List.mem_cons_of_mem _ (ih1 f hf d hd)
        · intro p hp
          rcases List.mem_cons.mp hp with rfl | hp
          · exact ⟨List.mem_cons_self _ _, hfg⟩
          · exact ⟨List.mem_cons_of_mem g (ih2 p hp).1, (ih2 p hp).2⟩

/-- Claim C8: the backup routine never fails when every tracked file is
absent or readable (absent files are silently skipped without error), and
on success it returns (1) the snapshot directory named by the sanitised
timestamp under the backup root of the template directory, (2) a snapshot
holding, for every tracked file that exists on disk, a byte-exact copy
under the same relative name — so any fingerprint of the copy equals the
pre-overwrite fingerprint of the tracked file, (3) nothing else — every
snapshot entry is a tracked file with exactly its on-disk bytes, and
(4) distinct sanitised timestamps give distinct snapshot directories. -/
theorem c8_backup_spec (templateDir ts : String) (fs : ArtifactFS) :
    ((∀ f ∈ TRACKED_FILES, fs.files f ≠ FileState.unreadable) →
      ∃ out, backupLocalFiles templateDir ts fs = Except.ok out) ∧
    (∀ out, backupLocalFiles templateDir ts fs = Except.ok out →
      out.1 = templateDir ++ "/.backup/" ++ sanitizeTimestamp ts ∧
      (∀ f ∈ TRACKED_FILES, ∀ d, fs.files f = FileState.content d → (f, d) ∈ out.2) ∧
      (∀ p ∈ out.2, p.1 ∈ TRACKED_FILES ∧ fs.files p.1 = FileState.content p.2) ∧
      (∀ ts2 : String, sanitizeTimestamp ts ≠ sanitizeTimestamp ts2 →
        out.1 ≠ templateDir ++ "/.backup/" ++ sanitizeTimestamp ts2)) := by
  constructor
  · intro h
    obtain ⟨snap, hsnap⟩ := copyTracked_ok fs TRACKED_FILES h
    refine ⟨(templateDir ++ "/.backup/" ++ sanitizeTimestamp ts, snap), ?_⟩
    unfold backupLocalFiles
    rw [hsnap]
  · intro out h
    unfold backupLocalFiles at h
    cases hsnap : copyTracked fs TRACKED_FILES with
    | error e => rw [hsnap] at h; cases h
    | ok snap =>
      rw [hsnap] at h
      cases h
      obtain ⟨h1, h2⟩ := copyTracked_spec fs TRACKED_FILES snap hsnap
      refine ⟨rfl, h1, h2, ?_⟩
      intro ts2 hne heq
      exact hne (string_append_right_inj (templateDir ++ "/.backup/") _ _ heq)

/-- Witness for C8: backing up a directory where template.html exists and
the other tracked files are absent succeeds. -/
theorem c8_witness :
    ∃ out, backupLocalFiles "templates/net/t1" "2026-01-01T00:00:00.000Z"
      ⟨fun f => if f = "template.html" then FileState.content "x" else FileState.absent,
       StoreState.missing⟩ = Except.ok out :=
  (c8_backup_spec "templates/net/t1" "2026-01-01T00:00:00.000Z"
    ⟨fun f => if f = "template.html" then FileState.content "x" else FileState.absent,
     StoreState.missing⟩).1 (by decide)

end LincxKit
